import Mathlib

/-!
Verification of the Simple Blog Title Generator repository.

The development shallowly embeds the content-extraction pipeline of
`app2.py` (`URLTitleGenerator._extract_text_from_url`,
`URLTitleGenerator._generate_titles`), the retry session it configures in
`URLTitleGenerator._setup_retry_session` (with the urllib3 `Retry`
semantics that configuration selects), the title-splitting caller in
`app_.py`, and `blog_title_generator` from `app.py`.

Strings are modelled as `List Char`.  Documents are modelled as parsed
markup trees (the parser itself is an external library operating in
lenient mode; claims quantify over its output trees).
-/

namespace BlogTitle

/-- Model of Python's whitespace class (`re` pattern `\s` on `str`, and the
set stripped by `str.strip()`): ASCII whitespace, the C1 separators,
NEL, NBSP and the Unicode space separators. -/
def pyIsSpace (c : Char) : Bool :=
  c.toNat = 9 || c.toNat = 10 || c.toNat = 11 || c.toNat = 12 ||
  c.toNat = 13 || c.toNat = 28 || c.toNat = 29 || c.toNat = 30 ||
  c.toNat = 31 || c.toNat = 32 || c.toNat = 133 || c.toNat = 160 ||
  c.toNat = 5760 || (8192 ≤ c.toNat && c.toNat ≤ 8202) ||
  c.toNat = 8232 || c.toNat = 8233 || c.toNat = 8239 ||
  c.toNat = 8287 || c.toNat = 12288

/-- Python `str.strip()`: drop leading and trailing whitespace. -/
def stripList (l : List Char) : List Char :=
  ((l.dropWhile pyIsSpace).reverse.dropWhile pyIsSpace).reverse

/-- Worker for `collapseWS`.  The flag records whether the previously
emitted character was the single space standing for a whitespace run. -/
def collapseAux : Bool → List Char → List Char
  | _, [] => []
  | prevWS, c :: rest =>
    if pyIsSpace c then
      if prevWS then collapseAux true rest
      else ' ' :: collapseAux true rest
    else c :: collapseAux false rest

/-- Python `re.sub(r"\s+", " ", text)`: every maximal run of whitespace
characters is replaced by a single space. -/
def collapseWS (l : List Char) : List Char := collapseAux false l

/-- `listStartsWith pat l` holds when `pat` is an initial segment of `l`. -/
def listStartsWith : List Char → List Char → Bool
  | [], _ => true
  | _ :: _, [] => false
  | p :: ps, c :: cs => p == c && listStartsWith ps cs

/-- `listHasSub pat l`: `pat` occurs as a contiguous substring of `l`.
Models the CSS attribute operator `*=` used by the source's selectors. -/
def listHasSub (pat : List Char) : List Char → Bool
  | [] => listStartsWith pat []
  | c :: cs => listStartsWith pat (c :: cs) || listHasSub pat cs

/-- A node of the parsed markup tree (`BeautifulSoup` tag tree): an element
with its tag name, `id` attribute, `class` attribute (the raw attribute
string, empty when absent) and children, or a text node. -/
inductive Node where
  | elem (tag idAttr classAttr : List Char) (children : List Node)
  | text (s : List Char)

mutual

/-- All nodes of a subtree in document order, the root first (preorder). -/
def preorder : Node → List Node
  | .elem t i c cs => .elem t i c cs :: preorderList cs
  | .text s => [.text s]

/-- Concatenated preorders of a forest, in document order. -/
def preorderList : List Node → List Node
  | [] => []
  | n :: rest => preorder n ++ preorderList rest

end

mutual

/-- The strings of all text nodes of a subtree, in document order
(`BeautifulSoup`'s `_all_strings`). -/
def textPieces : Node → List (List Char)
  | .elem _ _ _ cs => textPiecesList cs
  | .text s => [s]

/-- Text-node strings of a forest, in document order. -/
def textPiecesList : List Node → List (List Char)
  | [] => []
  | n :: rest => textPieces n ++ textPiecesList rest

end

/-- `tag.get_text(separator=' ', strip=True)`: strip each descendant text
string, skip the ones that become empty, and join with single spaces. -/
def getText (n : Node) : List Char :=
  List.intercalate [' ']
    (((textPieces n).map stripList).filter (fun s => !s.isEmpty))

/-- The tags decomposed by
`soup(["script", "style", "noscript", "header", "footer", "nav", "aside", "form"])`
in `_extract_text_from_url` step 1. -/
def bannedTags : List (List Char) :=
  [ "script".data, "style".data, "noscript".data, "header".data,
    "footer".data, "nav".data, "aside".data, "form".data ]

/-- Whether a node is an element rooted at one of the decomposed tags. -/
def isBannedNode : Node → Bool
  | .elem t _ _ _ => bannedTags.contains t
  | .text _ => false

mutual

/-- `tag.decompose()` for one node: a subtree rooted at a banned tag is
removed wholesale, any other element keeps its tag and attributes and
has its children cleaned recursively. -/
def cleanOne : Node → List Node
  | .elem t i c cs =>
    if bannedTags.contains t then [] else [.elem t i c (cleanForest cs)]
  | .text s => [.text s]

/-- Cleaning of a forest, preserving document order. -/
def cleanForest : List Node → List Node
  | [] => []
  | n :: rest => cleanOne n ++ cleanForest rest

end

/-- The decompose pass of `_extract_text_from_url` step 1 over the parsed
document. -/
def cleanChildren : List Node → List Node := cleanForest

/-- Attribute condition of one of the source's CSS selectors. -/
inductive AttrSel where
  | plain
  | classContains (s : List Char)
  | idContains (s : List Char)

/-- One structural selector: a required tag name plus an attribute
condition (the source only uses tag-restricted selectors). -/
structure Selector where
  tagName : List Char
  attr : AttrSel

/-- Whether a node matches a selector (CSS semantics of soupsieve:
`tag[class*="s"]` / `tag[id*="s"]` test substring containment on the raw
attribute value; text nodes never match). -/
def selMatches (sel : Selector) : Node → Bool
  | .elem t i c _ =>
    t == sel.tagName &&
      (match sel.attr with
       | .plain => true
       | .classContains s => listHasSub s c
       | .idContains s => listHasSub s i)
  | .text _ => false

/-- The ordered selector list `main_content_selectors` of
`_extract_text_from_url`:
`div[class*="article"], div[class*="post"], main, article,
div[id*="content"], div[class*="content"]`. -/
def mainContentSelectors : List Selector :=
  [ ⟨ "div".data, .classContains ("article".data) ⟩,
    ⟨ "div".data, .classContains ("post".data) ⟩,
    ⟨ "main".data, .plain ⟩,
    ⟨ "article".data, .plain ⟩,
    ⟨ "div".data, .idContains ("content".data) ⟩,
    ⟨ "div".data, .classContains ("content".data) ⟩ ]

/-- All elements of the parsed document in document order (a document is
the soup's forest of top-level nodes). -/
def docElems (doc : List Node) : List Node := preorderList doc

/-- `soup.select_one(selector)`: the first matching element in document
order, if any. -/
def selectOne (doc : List Node) (sel : Selector) : Option Node :=
  (docElems doc).find? (selMatches sel)

/-- The selector loop of `_extract_text_from_url` step 2: take the first
match of each selector in order; accept it as the content block iff its
flattened text is strictly longer than 500 characters; first acceptance
wins, a short or absent match moves on to the next selector. -/
def findBlock : List Selector → List Node → Option Node
  | [], _ => none
  | sel :: rest, doc =>
    match selectOne doc sel with
    | some b => if 500 < (getText b).length then some b else findBlock rest doc
    | none => findBlock rest doc

/-- Whether a node is a `body` element. -/
def isBodyElem : Node → Bool
  | .elem t _ _ _ => t == "body".data
  | .text _ => false

/-- The chosen content region: either a single element (selector match or
`soup.body`) or the whole document (`soup` itself). -/
inductive Block where
  | node (n : Node)
  | wholeDoc (d : List Node)

/-- `main_content_block = ...` of `_extract_text_from_url`: the selector
loop's winner, else `soup.body if soup.body else soup`. -/
def chosenBlock (doc : List Node) : Block :=
  match findBlock mainContentSelectors doc with
  | some b => Block.node b
  | none =>
    match (docElems doc).find? isBodyElem with
    | some b => Block.node b
    | none => Block.wholeDoc doc

/-- The search space of `block.find_all(...)`: the descendants of an
element (itself excluded), or every node of the whole document. -/
def blockNodes : Block → List Node
  | .node (.elem _ _ _ cs) => preorderList cs
  | .node (.text _) => []
  | .wholeDoc d => preorderList d

/-- The content-bearing tags `['p', 'h1', 'h2', 'h3', 'h4', 'li']`
targeted inside the chosen block. -/
def contentTags : List (List Char) :=
  [ "p".data, "h1".data, "h2".data, "h3".data, "h4".data, "li".data ]

/-- Whether a node is an element with one of the content-bearing tags. -/
def isContentElem : Node → Bool
  | .elem t _ _ _ => contentTags.contains t
  | .text _ => false

/-- `text_parts` of `_extract_text_from_url` step 3: the flattened text of
every content-tag descendant of the block, in document order, the empty
ones skipped (`if part:`). -/
def contentTextParts (b : Block) : List (List Char) :=
  (((blockNodes b).filter isContentElem).map getText).filter
    (fun s => !s.isEmpty)

/-- The normalized text of one extraction:
`text = " ".join(text_parts); text = re.sub(r"\s+", " ", text).strip()`,
computed on the decomposed tree. -/
def normalizedText (doc : List Node) : List Char :=
  stripList (collapseWS
    (List.intercalate [' '] (contentTextParts (chosenBlock (cleanChildren doc)))))

/-- The extraction error: the `ValueError` raised when the extracted
content is too short. -/
inductive ExtractErr where
  | tooShort
deriving DecidableEq

/-- The extraction pipeline with an explicit minimum-length parameter
(the source reads it from the class constant `MIN_CONTENT_LENGTH`). -/
def extractFromDocMin (minLen : Nat) (doc : List Node) :
    Except ExtractErr (List Char) :=
  let text := normalizedText doc
  if text.length < minLen then .error .tooShort else .ok text

/-- `URLTitleGenerator.MIN_CONTENT_LENGTH`. -/
def MIN_CONTENT_LENGTH : Nat := 100

/-- `URLTitleGenerator._extract_text_from_url` from the parsed tree on. -/
def extractFromDoc : List Node → Except ExtractErr (List Char) :=
  extractFromDocMin MIN_CONTENT_LENGTH

/-! ### The resilient fetch (`_setup_retry_session` + the `try` block of
`_extract_text_from_url`)

The session mounts `HTTPAdapter(max_retries=Retry(total=3,
backoff_factor=1, status_forcelist=[429, 500, 502, 503, 504],
allowed_methods=['HEAD', 'GET', 'OPTIONS']))` and issues a `GET`.  The
transport is modelled as an oracle giving the outcome of each attempt
(a terminal response status, or a connection/timeout error); redirects
and `Retry-After` headers are outside the modelled outcomes. -/

/-- The outcome the transport produces for one attempt. -/
inductive Attempt where
  | resp (status : Nat)
  | netErr
deriving DecidableEq

/-- `status_forcelist` of the configured `Retry`. -/
def retryForcelist : List Nat := [429, 500, 502, 503, 504]

/-- Whether an attempt outcome makes urllib3 retry (a forcelist status or
a transport error; `GET` is in `allowed_methods`). -/
def isRetryableAttempt : Attempt → Bool
  | .resp s => retryForcelist.contains s
  | .netErr => true

/-- urllib3 `Retry.DEFAULT_BACKOFF_MAX`. -/
def backoffMax : Nat := 120

/-- urllib3 `Retry.get_backoff_time` after `historyLen` consecutive
retries: `0` while the history holds at most one entry, otherwise
`min(backoff_max, backoff_factor * 2 ** (historyLen - 1))`. -/
def getBackoffTime (factor historyLen : Nat) : Nat :=
  if historyLen ≤ 1 then 0 else min backoffMax (factor * 2 ^ (historyLen - 1))

/-- What the adapter hands back to `requests`: a terminal response, or a
`MaxRetryError` caused by forcelist-status exhaustion (surfacing as
`RetryError`) or by transport-error exhaustion (surfacing as
`ConnectionError`/timeout). -/
inductive AdapterResult where
  | response (status : Nat)
  | maxRetryStatus (status : Nat)
  | maxRetryConn
deriving DecidableEq

/-- Observable record of one `session.get`: how many attempts were
issued, the backoff waits slept before each retry, and the terminal
adapter result. -/
structure FetchTrace where
  attempts : Nat
  delays : List Nat
  result : AdapterResult
deriving DecidableEq

/-- urllib3 `HTTPConnectionPool.urlopen` with the configured `Retry`:
`remaining` retries are left, `idx` is the 0-based attempt index, `hist`
the number of retries already recorded.  A retryable outcome with no
retries left raises `MaxRetryError`; otherwise the pool sleeps
`get_backoff_time` and retries. -/
def urlopenAux (oracle : Nat → Attempt) (factor : Nat) :
    Nat → Nat → Nat → FetchTrace
  | 0, idx, _ =>
    match oracle idx with
    | .resp s =>
      if retryForcelist.contains s then ⟨idx + 1, [], .maxRetryStatus s⟩
      else ⟨idx + 1, [], .response s⟩
    | .netErr => ⟨idx + 1, [], .maxRetryConn⟩
  | r + 1, idx, hist =>
    match oracle idx with
    | .resp s =>
      if retryForcelist.contains s then
        let t := urlopenAux oracle factor r (idx + 1) (hist + 1)
        ⟨t.attempts, getBackoffTime factor (hist + 1) :: t.delays, t.result⟩
      else ⟨idx + 1, [], .response s⟩
    | .netErr =>
      let t := urlopenAux oracle factor r (idx + 1) (hist + 1)
      ⟨t.attempts, getBackoffTime factor (hist + 1) :: t.delays, t.result⟩

/-- `self.session.get(url, ...)` under the configuration of
`_setup_retry_session`: `total=3` retries, `backoff_factor=1`. -/
def sessionGet (oracle : Nat → Attempt) : FetchTrace :=
  urlopenAux oracle 1 3 0 0

/-- Classification of the `requests.exceptions.RequestException` that
`_extract_text_from_url` re-raises: an `HTTPError` from
`raise_for_status`, a `RetryError` from status-retry exhaustion, or a
connection/timeout error from transport-retry exhaustion. -/
inductive FetchFailure where
  | httpError (status : Nat)
  | retryError (status : Nat)
  | connError
deriving DecidableEq

/-- `response.raise_for_status()`: raises `HTTPError` exactly for
status codes in `[400, 600)`. -/
def raiseForStatus (s : Nat) : Except FetchFailure Nat :=
  if 400 ≤ s ∧ s < 600 then .error (.httpError s) else .ok s

/-- The whole fetch boundary of `_extract_text_from_url`: run the session
request, then `raise_for_status`.  `Except.error` models the single
`requests.exceptions.RequestException` that the surrounding
`try`/`except` re-raises past the method to its caller. -/
def fetchUrl (oracle : Nat → Attempt) : Except FetchFailure Nat :=
  match (sessionGet oracle).result with
  | .response s => raiseForStatus s
  | .maxRetryStatus s => .error (.retryError s)
  | .maxRetryConn => .error .connError

/-! ### Title generation (`_generate_titles` of `app2.py`) -/

/-- `URLTitleGenerator.MAX_MODEL_INPUT_LENGTH`. -/
def MAX_MODEL_INPUT_LENGTH : Nat := 512

/-- `URLTitleGenerator._generate_titles` with the transformer pipeline
abstracted as `gen` (text handed to the backend to the list of generated
texts): truncate the content to `MAX_MODEL_INPUT_LENGTH` characters, run
the backend, and strip each generated title. -/
def generateTitles (gen : List Char → List (List Char))
    (content : List Char) : List (List Char) :=
  (gen (content.take MAX_MODEL_INPUT_LENGTH)).map stripList

/-! ### The title-splitting caller (`generate` in `app_.py`) -/

/-- Python `str.split(sep)` for a single-character separator: the pieces
between occurrences of `sep`, empty pieces kept. -/
def splitOnChar (sep : Char) : List Char → List (List Char)
  | [] => [[]]
  | c :: rest =>
    match splitOnChar sep rest with
    | [] => [[c]]
    | t :: ts => if c = sep then [] :: t :: ts else (c :: t) :: ts

/-- `[t.strip() for t in titles_raw.strip().split('\n') if t.strip()]`:
split the raw backend response on line boundaries, drop entries that are
blank after trimming, and trim the survivors. -/
def titlesFromRaw (raw : List Char) : List (List Char) :=
  (((splitOnChar '\n' (stripList raw)).filter
      (fun t => !(stripList t).isEmpty)).map stripList)

/-! ### `blog_title_generator` of `app.py` -/

/-- `generate_blog_titles` of `app.py` with the model pipeline abstracted
as `gen`: the content is truncated to 1000 characters before generation. -/
def generate_blog_titles (gen : List Char → List (List Char))
    (content : List Char) : List (List Char) :=
  gen (content.take 1000)

/-- The `ValueError` of `blog_title_generator`. -/
inductive BlogErr where
  | contentTooShort
deriving DecidableEq

/-- `blog_title_generator(input_data, is_url)` with the URL extractor and
the generation backend abstracted as parameters: extraction happens only
when `is_url` is true, content shorter than 100 characters raises, and
otherwise the titles are generated from the content. -/
def blog_title_generator (extractor : List Char → List Char)
    (gen : List Char → List (List Char))
    (inputData : List Char) (isUrl : Bool) :
    Except BlogErr (List (List Char)) :=
  let content := if isUrl then extractor inputData else inputData
  if content.length < 100 then .error .contentTooShort
  else .ok (generate_blog_titles gen content)

/-! ## Whitespace-normalization lemmas -/

/-- No two adjacent characters of the list are both whitespace. -/
def NoTwoWS (l : List Char) : Prop :=
  l.Chain' (fun a b => pyIsSpace a = false ∨ pyIsSpace b = false)

theorem collapseAux_true_head (l : List Char) :
    ((collapseAux true l).head?).all (fun c => !pyIsSpace c) = true := by
  induction l with
  | nil => rfl
  | cons c rest ih =>
    cases hc : pyIsSpace c with
    | true => simpa [collapseAux, hc] using ih
    | false => simp [collapseAux, hc]

theorem noTwoWS_collapseAux (l : List Char) :
    ∀ b : Bool, NoTwoWS (collapseAux b l) := by
  induction l with
  | nil => intro b; simp [collapseAux, NoTwoWS]
  | cons c rest ih =>
    intro b
    cases hc : pyIsSpace c with
    | true =>
      cases b with
      | true => simpa [collapseAux, hc] using ih true
      | false =>
        simp only [collapseAux, hc, if_true]
        refine List.chain'_cons'.mpr ⟨?_, ih true⟩
        intro y hy
        have := collapseAux_true_head rest
        cases hh : (collapseAux true rest).head? with
        | none => simp [hh] at hy
        | some z =>
          rw [hh] at hy this
          simp only [Option.all_some, Bool.not_eq_true'] at this
          simp only [Option.mem_def, Option.some.injEq] at hy
          exact Or.inr (hy ▸ this)
    | false =>
      simp only [collapseAux, hc, if_false]
      exact List.chain'_cons'.mpr ⟨fun y _ => Or.inl hc, ih false⟩

theorem chain'_dropWhile {R : Char → Char → Prop} (p : Char → Bool) :
    ∀ l : List Char, l.Chain' R → (l.dropWhile p).Chain' R := by
  intro l
  induction l with
  | nil => intro h; exact h
  | cons a l ih =>
    intro h
    rw [List.dropWhile_cons]
    by_cases hp : p a = true
    · simp only [hp, if_true]
      exact ih (List.chain'_cons'.mp h).2
    · simp only [hp, if_false]
      exact h

theorem noTwoWS_reverse {l : List Char} (h : NoTwoWS l) : NoTwoWS l.reverse := by
  rw [NoTwoWS, List.chain'_reverse]
  exact h.imp fun a b hab => Or.symm hab

theorem head_dropWhile_not (p : Char → Bool) :
    ∀ l : List Char, ((l.dropWhile p).head?).all (fun c => !p c) = true := by
  intro l
  induction l with
  | nil => rfl
  | cons a l ih =>
    rw [List.dropWhile_cons]
    by_cases hp : p a = true
    · simpa [hp] using ih
    · simp [hp]

theorem getLast_dropWhile_of_ne_nil (p : Char → Bool) :
    ∀ l : List Char, l.dropWhile p ≠ [] →
      (l.dropWhile p).getLast? = l.getLast? := by
  intro l
  induction l with
  | nil => intro h; simp [List.dropWhile] at h
  | cons a l ih =>
    intro h
    rw [List.dropWhile_cons] at h ⊢
    by_cases hp : p a = true
    · rw [if_pos hp] at h ⊢
      rw [ih h]
      cases l with
      | nil => exact absurd (by simp [List.dropWhile]) h
      | cons b m => rw [List.getLast?_cons_cons]
    · rw [if_neg hp]

theorem noTwoWS_stripList {l : List Char} (h : NoTwoWS l) :
    NoTwoWS (stripList l) :=
  noTwoWS_reverse (chain'_dropWhile _ _ (noTwoWS_reverse (chain'_dropWhile _ _ h)))

theorem stripList_head_not (l : List Char) :
    ((stripList l).head?).all (fun c => !pyIsSpace c) = true := by
  unfold stripList
  rw [List.head?_reverse]
  by_cases hx : (l.dropWhile pyIsSpace).reverse.dropWhile pyIsSpace = []
  · simp [hx]
  · rw [getLast_dropWhile_of_ne_nil pyIsSpace _ hx, List.getLast?_reverse]
    exact head_dropWhile_not pyIsSpace l

theorem stripList_getLast_not (l : List Char) :
    ((stripList l).getLast?).all (fun c => !pyIsSpace c) = true := by
  unfold stripList
  rw [List.getLast?_reverse]
  exact head_dropWhile_not pyIsSpace _

theorem stripList_of_clean {l : List Char}
    (h1 : (l.head?).all (fun c => !pyIsSpace c) = true)
    (h2 : (l.getLast?).all (fun c => !pyIsSpace c) = true) :
    stripList l = l := by
  have hd : ∀ m : List Char, ((m.head?).all (fun c => !pyIsSpace c) = true) →
      m.dropWhile pyIsSpace = m := by
    intro m hm
    cases m with
    | nil => rfl
    | cons a m =>
      simp only [List.head?_cons, Option.all_some, Bool.not_eq_true'] at hm
      rw [List.dropWhile_cons, if_neg (by simp [hm])]
  unfold stripList
  rw [hd l h1]
  rw [hd l.reverse (by rw [List.head?_reverse]; exact h2)]
  exact List.reverse_reverse l

theorem stripList_idem (l : List Char) : stripList (stripList l) = stripList l :=
  stripList_of_clean (stripList_head_not l) (stripList_getLast_not l)

theorem normalizedText_props (doc : List Node) :
    NoTwoWS (normalizedText doc) ∧
    ((normalizedText doc).head?).all (fun c => !pyIsSpace c) = true ∧
    ((normalizedText doc).getLast?).all (fun c => !pyIsSpace c) = true :=
  ⟨noTwoWS_stripList (noTwoWS_collapseAux _ false),
   stripList_head_not _, stripList_getLast_not _⟩

/-! ## Claim theorems: the extractor -/

/-- Claim C7: the text the extractor returns is the whitespace-collapsed,
trimmed join of the flattened texts of the content-bearing descendant
tags (`p`, `h1`–`h4`, `li`) of the chosen block, in document order; in
particular it never contains two consecutive whitespace characters and
has no leading or trailing whitespace. -/
theorem claim_C7_output_normalized (doc : List Node) (minLen : Nat)
    (t : List Char) (h : extractFromDocMin minLen doc = .ok t) :
    t = stripList (collapseWS (List.intercalate [' ']
          (contentTextParts (chosenBlock (cleanChildren doc))))) ∧
    NoTwoWS t ∧
    (t.head?).all (fun c => !pyIsSpace c) = true ∧
    (t.getLast?).all (fun c => !pyIsSpace c) = true := by
  have ht : t = normalizedText doc := by
    by_cases hlt : (normalizedText doc).length < minLen
    · have he : extractFromDocMin minLen doc = .error .tooShort := by
        unfold extractFromDocMin; simp [hlt]
      rw [he] at h
      exact absurd h (by simp)
    · have he : extractFromDocMin minLen doc = .ok (normalizedText doc) := by
        unfold extractFromDocMin; simp [hlt]
      rw [he] at h
      injection h with hh
      exact hh.symm
  subst ht
  exact ⟨rfl, (normalizedText_props doc).1, (normalizedText_props doc).2.1,
    (normalizedText_props doc).2.2⟩

/-- Concrete document for the C7 witness: a body holding one paragraph
whose text carries inner and surrounding whitespace. -/
def c7doc : List Node :=
  [ .elem ("body".data) [] []
      [ .elem ("p".data) [] [] [ .text (" a  b ".data) ] ] ]

/-- Witness for C7 at a concrete document: the paragraph `" a  b "`
extracts to `"a b"`, which satisfies all the normalization properties. -/
theorem claim_C7_witness :
    ("a b".data = stripList (collapseWS (List.intercalate [' ']
          (contentTextParts (chosenBlock (cleanChildren c7doc))))) ∧
      NoTwoWS ("a b".data) ∧
      (("a b".data).head?).all (fun c => !pyIsSpace c) = true ∧
      (("a b".data).getLast?).all (fun c => !pyIsSpace c) = true) :=
  claim_C7_output_normalized c7doc 0 ("a b".data) rfl

/-- Claim C3: for every parsed document and minimum length, extraction
reports too-short exactly when the normalized text is strictly shorter
than the minimum; text of exactly `min_length - 1` characters is
rejected and text of exactly `min_length` characters is returned. -/
theorem claim_C3_min_length_boundary (doc : List Node) (minLen : Nat) :
    (extractFromDocMin minLen doc = .error .tooShort ↔
      (normalizedText doc).length < minLen) ∧
    ((normalizedText doc).length + 1 = minLen →
      extractFromDocMin minLen doc = .error .tooShort) ∧
    (minLen ≤ (normalizedText doc).length →
      extractFromDocMin minLen doc = .ok (normalizedText doc)) := by
  unfold extractFromDocMin
  by_cases h : (normalizedText doc).length < minLen
  · refine ⟨by simp [h], fun _ => by simp [h], fun hge => absurd hge (by omega)⟩
  · refine ⟨by simp [h], fun heq => absurd heq (by omega), fun _ => by simp [h]⟩

/-- Concrete document for the C3 witness. -/
def c3doc : List Node :=
  [ .elem ("body".data) [] []
      [ .elem ("p".data) [] [] [ .text ("abc".data) ] ] ]

/-- Witness for C3: the empty document is rejected at `min_length = 1`
(its normalized text has exactly `min_length - 1 = 0` characters), and a
three-character text is returned at `min_length = 3` exactly. -/
theorem claim_C3_witness :
    extractFromDocMin 1 [] = .error .tooShort ∧
    extractFromDocMin 3 c3doc = .ok (normalizedText c3doc) :=
  ⟨(claim_C3_min_length_boundary [] 1).2.1 rfl,
   (claim_C3_min_length_boundary c3doc 3).2.2 (by decide)⟩

/-! ## Claim theorems: title handling -/

/-- Claim C8: splitting the raw backend response on line boundaries,
trimming each entry and discarding blank lines, yields a sequence whose
every candidate is trimmed and non-empty. -/
theorem claim_C8_split_candidates (raw : List Char) :
    (titlesFromRaw raw).all
      (fun t => !t.isEmpty && decide (stripList t = t)) = true := by
  rw [List.all_eq_true]
  intro t ht
  unfold titlesFromRaw at ht
  rw [List.mem_map] at ht
  obtain ⟨u, hu, hut⟩ := ht
  rw [List.mem_filter] at hu
  have hne : (!(stripList u).isEmpty) = true := hu.2
  subst hut
  simp only [Bool.and_eq_true, decide_eq_true_eq]
  exact ⟨hne, stripList_idem u⟩

/-- Witness for C8 on a concrete two-line raw response with blank lines
and surrounding whitespace. -/
theorem claim_C8_witness :
    (titlesFromRaw (" 1. Alpha\n\n 2. Beta \n".data)).all
      (fun t => !t.isEmpty && decide (stripList t = t)) = true :=
  claim_C8_split_candidates (" 1. Alpha\n\n 2. Beta \n".data)

/-- Claim C9: `_generate_titles` hands the backend at most the first
`MAX_MODEL_INPUT_LENGTH = 512` characters of the content — content of at
most 512 characters is passed unchanged, longer content is truncated to
its 512-character prefix — and every returned title is stripped of
surrounding whitespace. -/
theorem claim_C9_truncate_and_strip (gen : List Char → List (List Char))
    (content : List Char) :
    (content.length ≤ MAX_MODEL_INPUT_LENGTH →
      generateTitles gen content = (gen content).map stripList) ∧
    generateTitles gen content =
      (gen (content.take MAX_MODEL_INPUT_LENGTH)).map stripList ∧
    (content.take MAX_MODEL_INPUT_LENGTH).length ≤ MAX_MODEL_INPUT_LENGTH ∧
    content.take MAX_MODEL_INPUT_LENGTH ++
      content.drop MAX_MODEL_INPUT_LENGTH = content ∧
    (generateTitles gen content).all
      (fun t => decide (stripList t = t)) = true := by
  refine ⟨?_, rfl, ?_, List.take_append_drop _ _, ?_⟩
  · intro hle
    unfold generateTitles
    rw [List.take_of_length_le hle]
  · rw [List.length_take]
    exact min_le_left _ _
  · rw [List.all_eq_true]
    intro t ht
    unfold generateTitles at ht
    rw [List.mem_map] at ht
    obtain ⟨u, _, hut⟩ := ht
    subst hut
    simp only [decide_eq_true_eq]
    exact stripList_idem u

/-- Witness for C9: short content is passed to the backend unchanged and
the backend's whitespace-padded answer comes back stripped. -/
theorem claim_C9_witness :
    generateTitles (fun _ => [ " x ".data ]) ("hi".data) = [ "x".data ] :=
  (((claim_C9_truncate_and_strip (fun _ => [ " x ".data ])
      ("hi".data)).1 (by simp [MAX_MODEL_INPUT_LENGTH])).trans (by rfl))

/-- Claim C10: with `is_url=False`, `blog_title_generator` uses the input
text as the content unchanged — the extractor is never consulted — and
input strictly shorter than 100 characters raises the `ValueError`
without invoking the generation backend. -/
theorem claim_C10_direct_text_path (ext ext2 : List Char → List Char)
    (gen gen2 : List Char → List (List Char)) (inputData : List Char) :
    blog_title_generator ext gen inputData false =
      blog_title_generator ext2 gen inputData false ∧
    (inputData.length < 100 →
      blog_title_generator ext gen inputData false = .error .contentTooShort ∧
      blog_title_generator ext gen inputData false =
        blog_title_generator ext gen2 inputData false) ∧
    (100 ≤ inputData.length →
      blog_title_generator ext gen inputData false =
        .ok (gen (inputData.take 1000))) := by
  have hb : ∀ (e : List Char → List Char) (g : List Char → List (List Char)),
      blog_title_generator e g inputData false =
        if inputData.length < 100 then Except.error BlogErr.contentTooShort
        else Except.ok (g (inputData.take 1000)) := fun _ _ => rfl
  refine ⟨?_, fun hlt => ⟨?_, ?_⟩, fun hge => ?_⟩
  · rw [hb ext gen, hb ext2 gen]
  · rw [hb ext gen, if_pos hlt]
  · rw [hb ext gen, hb ext gen2, if_pos hlt, if_pos hlt]
  · rw [hb ext gen, if_neg (by omega)]

/-- Witness for C10: a five-character input is rejected as too short
whatever the extractor and backend are. -/
theorem claim_C10_witness :
    blog_title_generator (fun s => s) (fun _ => ([] : List (List Char)))
      (List.replicate 5 'a') false = .error .contentTooShort :=
  ((claim_C10_direct_text_path (fun s => s) (fun s => s)
      (fun _ => ([] : List (List Char))) (fun _ => [[]])
      (List.replicate 5 'a')).2.1 (by simp)).1

/-! ## Claim theorems: decompose pass and fallback -/

theorem preorderList_append (a b : List Node) :
    preorderList (a ++ b) = preorderList a ++ preorderList b := by
  induction a with
  | nil => rfl
  | cons n rest ih => simp [preorderList, ih, List.append_assoc]

mutual

theorem cleanOne_no_banned (n : Node) :
    ((preorderList (cleanOne n)).all (fun m => !isBannedNode m)) = true := by
  match n with
  | .elem t i c cs =>
    rw [cleanOne]
    by_cases h : bannedTags.contains t = true
    · rw [if_pos h]; rfl
    · rw [if_neg h]
      have hc : bannedTags.contains t = false := by
        cases hcc : bannedTags.contains t
        · rfl
        · exact absurd hcc h
      simp only [preorderList, preorder, List.append_nil, List.all_cons,
        Bool.and_eq_true]
      refine ⟨?_, cleanForest_no_banned cs⟩
      simp only [isBannedNode]
      rw [hc]
      rfl
  | .text s => rfl

theorem cleanForest_no_banned (l : List Node) :
    ((preorderList (cleanForest l)).all (fun m => !isBannedNode m)) = true := by
  match l with
  | [] => rfl
  | n :: rest =>
    rw [cleanForest, preorderList_append, List.all_append,
      Bool.and_eq_true]
    exact ⟨cleanOne_no_banned n, cleanForest_no_banned rest⟩

end

/-- Concrete document for the C5 witness part: a body whose script sibling
precedes a 600-character paragraph. -/
def c5doc : List Node :=
  [ .elem ("html".data) [] []
      [ .elem ("body".data) [] []
          [ .elem ("script".data) [] [] [ .text ("evil()".data) ],
            .elem ("p".data) [] [] [ .text (List.replicate 600 'a') ] ] ] ]

set_option maxRecDepth 400000 in
/-- Claim C5: the decompose pass removes every subtree rooted at a
script/style/noscript/header/footer/nav/aside/form tag before any
selector ranking, so no element with such a tag survives in the cleaned
tree; and on the spec's concrete body-fallback example the script content
is excluded entirely, only the 600-character paragraph being returned. -/
theorem claim_C5_decompose_removes_banned :
    (∀ doc : List Node,
      ((preorderList (cleanChildren doc)).all (fun m => !isBannedNode m)) = true) ∧
    extractFromDoc c5doc = .ok (List.replicate 600 'a') :=
  ⟨fun doc => cleanForest_no_banned doc, by rfl⟩

/-- Whether a selector's first match, if any, fails the 500-character
robustness threshold. -/
def selRejects (doc : List Node) (sel : Selector) : Bool :=
  match selectOne doc sel with
  | some b => decide ((getText b).length ≤ 500)
  | none => true

/-- Whether every structural selector fails to produce an accepted block. -/
def noSelectorAccepts (doc : List Node) : Bool :=
  mainContentSelectors.all (selRejects doc)

theorem findBlock_eq_none_of_all_reject :
    ∀ (sels : List Selector) (doc : List Node),
      sels.all (selRejects doc) = true → findBlock sels doc = none := by
  intro sels
  induction sels with
  | nil => intro doc _; rfl
  | cons s rest ih =>
    intro doc h
    rw [List.all_cons, Bool.and_eq_true] at h
    rw [findBlock]
    cases hsel : selectOne doc s with
    | none => exact ih doc h.2
    | some b =>
      have hlen : (getText b).length ≤ 500 := by
        have hr := h.1
        rw [selRejects, hsel] at hr
        exact of_decide_eq_true hr
      show (if 500 < (getText b).length then some b else findBlock rest doc) = none
      rw [if_neg (by omega)]
      exact ih doc h.2

/-- Claim C6: whenever no selector produces a matching element whose
flattened text exceeds the 500-character threshold, the extractor takes
the document's first `body` element as the content block, and the whole
document when no `body` element exists. -/
theorem claim_C6_body_fallback (doc : List Node)
    (h : noSelectorAccepts doc = true) :
    chosenBlock doc =
      (match (docElems doc).find? isBodyElem with
       | some b => Block.node b
       | none => Block.wholeDoc doc) := by
  unfold chosenBlock
  rw [findBlock_eq_none_of_all_reject mainContentSelectors doc h]

/-- Concrete document for the C6 witness. -/
def c6doc : List Node :=
  [ .elem ("html".data) [] []
      [ .elem ("body".data) [] []
          [ .elem ("p".data) [] [] [ .text ("hi".data) ] ] ] ]

/-- Witness for C6: with no selector matching, the chosen block is the
document's body element. -/
theorem claim_C6_witness :
    chosenBlock c6doc =
      Block.node (.elem ("body".data) [] []
        [ .elem ("p".data) [] [] [ .text ("hi".data) ] ]) :=
  claim_C6_body_fallback c6doc (by decide)

/-! ## Claim theorems: selector priority (C1) -/

theorem findBlock_eq_some_iff :
    ∀ (sels : List Selector) (doc : List Node) (b : Node),
      findBlock sels doc = some b ↔
        ∃ pre sel post, sels = pre ++ sel :: post ∧
          (∀ s ∈ pre, ∀ b', selectOne doc s = some b' →
            (getText b').length ≤ 500) ∧
          selectOne doc sel = some b ∧ 500 < (getText b).length := by
  intro sels
  induction sels with
  | nil =>
    intro doc b
    constructor
    · intro h
      exact absurd h (by rw [findBlock]; simp)
    · rintro ⟨pre, sel, post, heq, -, -, -⟩
      exact absurd heq (by simp)
  | cons s rest ih =>
    intro doc b
    rw [findBlock]
    cases hsel : selectOne doc s with
    | some b0 =>
      by_cases hlen : 500 < (getText b0).length
      · show (if 500 < (getText b0).length then some b0 else findBlock rest doc)
            = some b ↔ _
        rw [if_pos hlen]
        constructor
        · intro h
          injection h with hb
          subst hb
          exact ⟨[], s, rest, rfl, by simp, hsel, hlen⟩
        · rintro ⟨pre, sel, post, heq, hrej, hsel2, hlen2⟩
          cases pre with
          | nil =>
            simp only [List.nil_append, List.cons.injEq] at heq
            obtain ⟨hs, -⟩ := heq
            rw [← hs, hsel] at hsel2
            injection hsel2 with hb
            rw [hb]
          | cons s1 pre1 =>
            simp only [List.cons_append, List.cons.injEq] at heq
            obtain ⟨hs1, -⟩ := heq
            have hb0 := hrej s1 (List.mem_cons_self _ _) b0 (hs1 ▸ hsel)
            omega
      · show (if 500 < (getText b0).length then some b0 else findBlock rest doc)
            = some b ↔ _
        rw [if_neg hlen, ih doc b]
        constructor
        · rintro ⟨pre, sel, post, heq, hrej, hsel2, hlen2⟩
          refine ⟨s :: pre, sel, post, by rw [heq, List.cons_append], ?_, hsel2, hlen2⟩
          intro s2 hs2 b' hb'
          rcases List.mem_cons.mp hs2 with h2 | h2
          · rw [h2, hsel] at hb'
            injection hb' with hbe
            rw [← hbe]
            omega
          · exact hrej s2 h2 b' hb'
        · rintro ⟨pre, sel, post, heq, hrej, hsel2, hlen2⟩
          cases pre with
          | nil =>
            simp only [List.nil_append, List.cons.injEq] at heq
            obtain ⟨hs, -⟩ := heq
            rw [← hs, hsel] at hsel2
            injection hsel2 with hb
            subst hb
            omega
          | cons s1 pre1 =>
            simp only [List.cons_append, List.cons.injEq] at heq
            obtain ⟨-, hrest⟩ := heq
            exact ⟨pre1, sel, post, hrest,
              fun s2 h2 b' hb' => hrej s2 (List.mem_cons_of_mem _ h2) b' hb',
              hsel2, hlen2⟩
    | none =>
      show findBlock rest doc = some b ↔ _
      rw [ih doc b]
      constructor
      · rintro ⟨pre, sel, post, heq, hrej, hsel2, hlen2⟩
        refine ⟨s :: pre, sel, post, by rw [heq, List.cons_append], ?_, hsel2, hlen2⟩
        intro s2 hs2 b' hb'
        rcases List.mem_cons.mp hs2 with h2 | h2
        · rw [h2, hsel] at hb'
          exact absurd hb' (by simp)
        · exact hrej s2 h2 b' hb'
      · rintro ⟨pre, sel, post, heq, hrej, hsel2, hlen2⟩
        cases pre with
        | nil =>
          simp only [List.nil_append, List.cons.injEq] at heq
          obtain ⟨hs, -⟩ := heq
          rw [← hs, hsel] at hsel2
          exact absurd hsel2 (by simp)
        | cons s1 pre1 =>
          simp only [List.cons_append, List.cons.injEq] at heq
          obtain ⟨-, hrest⟩ := heq
          exact ⟨pre1, sel, post, hrest,
            fun s2 h2 b' hb' => hrej s2 (List.mem_cons_of_mem _ h2) b' hb',
            hsel2, hlen2⟩

/-- Claim C1 (amended: the attribute selectors only match `div` elements,
as in the source's `div[class*="article"]` etc.): the selector loop
returns a block exactly when some selector of the ordered list
`div[class*="article"], div[class*="post"], main, article,
div[id*="content"], div[class*="content"]` has a first document-order
match whose flattened text is strictly longer than 500 characters, every
earlier selector's first match (when it exists) being at most 500
characters long — the first sufficiently long match wins and later
selectors are never consulted, and a match of exactly 500 characters is
not accepted. -/
theorem claim_C1_selector_priority (doc : List Node) (b : Node) :
    findBlock mainContentSelectors doc = some b ↔
      ∃ pre sel post, mainContentSelectors = pre ++ sel :: post ∧
        (∀ s ∈ pre, ∀ b', selectOne doc s = some b' →
          (getText b').length ≤ 500) ∧
        selectOne doc sel = some b ∧ 500 < (getText b).length :=
  findBlock_eq_some_iff mainContentSelectors doc b

/-- Concrete document for the C1 witness: a 501-character `main` element,
no `div` anywhere. -/
def c1wMain : Node :=
  .elem ("main".data) [] [] [ .elem ("p".data) [] [] [ .text (List.replicate 501 'a') ] ]

/-- Document wrapping `c1wMain`. -/
def c1wDoc : List Node :=
  [ .elem ("html".data) [] [] [ .elem ("body".data) [] [] [ c1wMain ] ] ]

set_option maxRecDepth 400000 in
/-- Witness for C1: on `c1wDoc` the two `div` selectors have no match, the
`main` selector's first match is 501 characters long, and the loop
returns it. -/
theorem claim_C1_witness :
    findBlock mainContentSelectors c1wDoc = some c1wMain :=
  (claim_C1_selector_priority c1wDoc c1wMain).mpr
    ⟨ [ ⟨ "div".data, .classContains ("article".data) ⟩,
        ⟨ "div".data, .classContains ("post".data) ⟩ ],
      ⟨ "main".data, .plain ⟩,
      [ ⟨ "article".data, .plain ⟩,
        ⟨ "div".data, .idContains ("content".data) ⟩,
        ⟨ "div".data, .classContains ("content".data) ⟩ ],
      rfl,
      by
        intro s hs b' hb'
        rcases List.mem_cons.mp hs with h2 | h2
        · rw [h2] at hb'
          rw [show selectOne c1wDoc ⟨ "div".data, .classContains ("article".data) ⟩
              = none from rfl] at hb'
          exact absurd hb' (by simp)
        · rcases List.mem_cons.mp h2 with h3 | h3
          · rw [h3] at hb'
            rw [show selectOne c1wDoc ⟨ "div".data, .classContains ("post".data) ⟩
                = none from rfl] at hb'
            exact absurd hb' (by simp)
          · exact absurd h3 (by simp),
      rfl,
      by decide ⟩

/-- Modelled from the spec claim's wording for C1: "element with class
containing `s`" — an element of any tag whose class attribute contains
the substring, with no `div` restriction. -/
def specClassContainsElem (s : List Char) : Node → Bool
  | .elem _ _ c _ => listHasSub s c
  | .text _ => false

/-- First document-order element whose class attribute contains `s`,
following the claim's selector reading. -/
def specSelectOneClassContains (doc : List Node) (s : List Char) : Option Node :=
  (docElems doc).find? (specClassContainsElem s)

/-- Concrete counterexample document for C1: a `section` element with
class `article` holding 501 characters, followed by a sibling paragraph. -/
def c1cexSection : Node :=
  .elem ("section".data) [] ("article".data)
    [ .elem ("p".data) [] [] [ .text (List.replicate 501 'a') ] ]

/-- Document wrapping `c1cexSection`. -/
def c1cexDoc : List Node :=
  [ .elem ("html".data) [] [] [ .elem ("body".data) [] []
      [ c1cexSection, .elem ("p".data) [] [] [ .text ("tail".data) ] ] ] ]

set_option maxRecDepth 400000 in
/-- Counterexample to C1 as stated: `c1cexDoc` holds an element whose
class contains `article` with flattened text longer than 500 characters
(the claim's first selector would accept it and stop), yet the code's
selector loop — which restricts the attribute selectors to `div`
elements — accepts nothing and falls back to the body, whose extracted
text also includes the sibling paragraph `tail`. -/
theorem claim_C1_counterexample :
    specSelectOneClassContains c1cexDoc ("article".data) = some c1cexSection ∧
    500 < (getText c1cexSection).length ∧
    findBlock mainContentSelectors c1cexDoc = none ∧
    extractFromDoc c1cexDoc = .ok (List.replicate 501 'a' ++ ' ' :: "tail".data) :=
  ⟨rfl, by decide, rfl, by rfl⟩

/-! ## Claim theorems: the resilient fetch (C2, C4) -/

/-- The `MaxRetryError` cause produced when the retry budget is exhausted
on the given terminal attempt outcome. -/
def exhaustCause : Attempt → AdapterResult
  | .resp s => .maxRetryStatus s
  | .netErr => .maxRetryConn

theorem urlopenAux_nonretry (oracle : Nat → Attempt) (factor r idx hist s : Nat)
    (ho : oracle idx = .resp s) (hs : retryForcelist.contains s = false) :
    urlopenAux oracle factor r idx hist = ⟨idx + 1, [], .response s⟩ := by
  have hs' : ¬ s ∈ retryForcelist := by simpa using hs
  cases r with
  | zero => rw [urlopenAux, ho]; simp [hs']
  | succ r => rw [urlopenAux, ho]; simp [hs']

theorem urlopenAux_retry_step (oracle : Nat → Attempt) (factor r idx hist : Nat)
    (h : isRetryableAttempt (oracle idx) = true) :
    urlopenAux oracle factor (r + 1) idx hist =
      ⟨(urlopenAux oracle factor r (idx + 1) (hist + 1)).attempts,
        getBackoffTime factor (hist + 1) ::
          (urlopenAux oracle factor r (idx + 1) (hist + 1)).delays,
        (urlopenAux oracle factor r (idx + 1) (hist + 1)).result⟩ := by
  cases ho : oracle idx with
  | resp s =>
    have hc : s ∈ retryForcelist := by
      rw [isRetryableAttempt.eq_def, ho] at h
      simpa using h
    rw [urlopenAux, ho]
    simp [hc]
  | netErr => rw [urlopenAux, ho]

theorem urlopenAux_exhaust (oracle : Nat → Attempt) (factor idx hist : Nat)
    (h : isRetryableAttempt (oracle idx) = true) :
    urlopenAux oracle factor 0 idx hist = ⟨idx + 1, [], exhaustCause (oracle idx)⟩ := by
  cases ho : oracle idx with
  | resp s =>
    have hc : s ∈ retryForcelist := by
      rw [isRetryableAttempt.eq_def, ho] at h
      simpa using h
    rw [urlopenAux, ho, exhaustCause]
    simp [hc]
  | netErr => rw [urlopenAux, ho, exhaustCause]

theorem urlopenAux_first_success (oracle : Nat → Attempt) (factor : Nat) :
    ∀ (k r idx hist s : Nat), k ≤ r →
      (∀ i, i < k → isRetryableAttempt (oracle (idx + i)) = true) →
      oracle (idx + k) = .resp s → retryForcelist.contains s = false →
      urlopenAux oracle factor r idx hist =
        ⟨idx + k + 1,
          (List.range k).map (fun n => getBackoffTime factor (hist + n + 1)),
          .response s⟩ := by
  intro k
  induction k with
  | zero =>
    intro r idx hist s _ _ ho hs
    rw [Nat.add_zero] at ho
    rw [urlopenAux_nonretry oracle factor r idx hist s ho hs]
    rfl
  | succ k ih =>
    intro r idx hist s hkr hretry ho hs
    cases r with
    | zero => omega
    | succ r =>
      have h0 : isRetryableAttempt (oracle idx) = true := by
        have hh := hretry 0 (by omega)
        rwa [Nat.add_zero] at hh
      rw [urlopenAux_retry_step oracle factor r idx hist h0]
      have hrec := ih r (idx + 1) (hist + 1) s (by omega)
        (fun i hi => by
          have hh := hretry (i + 1) (by omega)
          rwa [show idx + (i + 1) = idx + 1 + i by omega] at hh)
        (by rwa [show idx + 1 + k = idx + (k + 1) by omega])
        hs
      rw [hrec]
      have hd : getBackoffTime factor (hist + 1) ::
          (List.range k).map (fun n => getBackoffTime factor (hist + 1 + n + 1)) =
          (List.range (k + 1)).map (fun n => getBackoffTime factor (hist + n + 1)) := by
        rw [List.range_succ_eq_map, List.map_cons, List.map_map]
        refine congrArg₂ _ (by rw [Nat.add_zero]) ?_
        refine List.map_congr_left ?_
        intro n _
        simp only [Function.comp_apply]
        rw [show hist + 1 + n + 1 = hist + (n + 1) + 1 by omega]
      dsimp only
      rw [show idx + 1 + k + 1 = idx + (k + 1) + 1 by omega, hd]

theorem urlopenAux_all_retry (oracle : Nat → Attempt) (factor : Nat) :
    ∀ (r idx hist : Nat),
      (∀ i, i ≤ r → isRetryableAttempt (oracle (idx + i)) = true) →
      urlopenAux oracle factor r idx hist =
        ⟨idx + r + 1,
          (List.range r).map (fun n => getBackoffTime factor (hist + n + 1)),
          exhaustCause (oracle (idx + r))⟩ := by
  intro r
  induction r with
  | zero =>
    intro idx hist h
    have h0 := h 0 (by omega)
    rw [Nat.add_zero] at h0
    rw [urlopenAux_exhaust oracle factor idx hist h0]
    rw [Nat.add_zero]
    rfl
  | succ r ih =>
    intro idx hist h
    have h0 : isRetryableAttempt (oracle idx) = true := by
      have hh := h 0 (by omega)
      rwa [Nat.add_zero] at hh
    rw [urlopenAux_retry_step oracle factor r idx hist h0]
    have hrec := ih (idx + 1) (hist + 1) (fun i hi => by
      have hh := h (i + 1) (by omega)
      rwa [show idx + (i + 1) = idx + 1 + i by omega] at hh)
    rw [hrec]
    have hd : getBackoffTime factor (hist + 1) ::
        (List.range r).map (fun n => getBackoffTime factor (hist + 1 + n + 1)) =
        (List.range (r + 1)).map (fun n => getBackoffTime factor (hist + n + 1)) := by
      rw [List.range_succ_eq_map, List.map_cons, List.map_map]
      refine congrArg₂ _ (by rw [Nat.add_zero]) ?_
      refine List.map_congr_left ?_
      intro n _
      simp only [Function.comp_apply]
      rw [show hist + 1 + n + 1 = hist + (n + 1) + 1 by omega]
    dsimp only
    rw [show idx + 1 + r + 1 = idx + (r + 1) + 1 by omega]
    rw [show idx + 1 + r = idx + (r + 1) by omega]
    rw [hd]

theorem nonretryable_is_resp (a : Attempt)
    (h : isRetryableAttempt a = false) :
    ∃ s, a = .resp s ∧ retryForcelist.contains s = false := by
  cases a with
  | resp s => exact ⟨s, rfl, by rwa [isRetryableAttempt.eq_def] at h⟩
  | netErr => exact absurd h (by rw [isRetryableAttempt.eq_def]; simp)

theorem sessionGet_cases (oracle : Nat → Attempt) :
    (∃ k s, k ≤ 3 ∧ (∀ i, i < k → isRetryableAttempt (oracle i) = true) ∧
      oracle k = .resp s ∧ retryForcelist.contains s = false ∧
      sessionGet oracle =
        ⟨k + 1, (List.range k).map (fun n => getBackoffTime 1 (n + 1)),
          .response s⟩) ∨
    ((∀ i, i ≤ 3 → isRetryableAttempt (oracle i) = true) ∧
      sessionGet oracle = ⟨4, [0, 2, 4], exhaustCause (oracle 3)⟩) := by
  have key : ∀ k s, k ≤ 3 → (∀ i, i < k → isRetryableAttempt (oracle i) = true) →
      oracle k = .resp s → retryForcelist.contains s = false →
      sessionGet oracle =
        ⟨k + 1, (List.range k).map (fun n => getBackoffTime 1 (n + 1)),
          .response s⟩ := by
    intro k s hk hr ho hs
    have hmain := urlopenAux_first_success oracle 1 k 3 0 0 s hk
      (fun i hi => by rw [Nat.zero_add]; exact hr i hi)
      (by rwa [Nat.zero_add]) hs
    rw [sessionGet, hmain]
    have hf : (fun n => getBackoffTime 1 (0 + n + 1)) =
        (fun n => getBackoffTime 1 (n + 1)) :=
      funext fun n => by rw [Nat.zero_add]
    rw [Nat.zero_add, hf]
  by_cases h0 : isRetryableAttempt (oracle 0) = true
  · by_cases h1 : isRetryableAttempt (oracle 1) = true
    · by_cases h2 : isRetryableAttempt (oracle 2) = true
      · by_cases h3 : isRetryableAttempt (oracle 3) = true
        · right
          have hall : ∀ i, i ≤ 3 → isRetryableAttempt (oracle i) = true := by
            intro i hi
            interval_cases i
            · exact h0
            · exact h1
            · exact h2
            · exact h3
          refine ⟨hall, ?_⟩
          have hmain := urlopenAux_all_retry oracle 1 3 0 0 (fun i hi => by
            rw [Nat.zero_add]; exact hall i hi)
          rw [sessionGet, hmain]
          rfl
        · left
          obtain ⟨s, hos, hcs⟩ := nonretryable_is_resp _ (by
            cases hb : isRetryableAttempt (oracle 3)
            · rfl
            · exact absurd hb h3)
          have hpre : ∀ i, i < 3 → isRetryableAttempt (oracle i) = true := by
            intro i hi
            interval_cases i
            · exact h0
            · exact h1
            · exact h2
          exact ⟨3, s, by omega, hpre, hos, hcs, key 3 s (by omega) hpre hos hcs⟩
      · left
        obtain ⟨s, hos, hcs⟩ := nonretryable_is_resp _ (by
          cases hb : isRetryableAttempt (oracle 2)
          · rfl
          · exact absurd hb h2)
        have hpre : ∀ i, i < 2 → isRetryableAttempt (oracle i) = true := by
          intro i hi
          interval_cases i
          · exact h0
          · exact h1
        exact ⟨2, s, by omega, hpre, hos, hcs, key 2 s (by omega) hpre hos hcs⟩
    · left
      obtain ⟨s, hos, hcs⟩ := nonretryable_is_resp _ (by
        cases hb : isRetryableAttempt (oracle 1)
        · rfl
        · exact absurd hb h1)
      have hpre : ∀ i, i < 1 → isRetryableAttempt (oracle i) = true := by
        intro i hi
        interval_cases i
        exact h0
      exact ⟨1, s, by omega, hpre, hos, hcs, key 1 s (by omega) hpre hos hcs⟩
  · left
    obtain ⟨s, hos, hcs⟩ := nonretryable_is_resp _ (by
      cases hb : isRetryableAttempt (oracle 0)
      · rfl
      · exact absurd hb h0)
    have hpre : ∀ i, i < 0 → isRetryableAttempt (oracle i) = true := by
      intro i hi
      omega
    exact ⟨0, s, by omega, hpre, hos, hcs, key 0 s (by omega) hpre hos hcs⟩

theorem sessionGet_first_success (oracle : Nat → Attempt) (k s : Nat)
    (hk : k ≤ 3) (hr : ∀ i, i < k → isRetryableAttempt (oracle i) = true)
    (ho : oracle k = .resp s) (hs : retryForcelist.contains s = false) :
    sessionGet oracle =
      ⟨k + 1, (List.range k).map (fun n => getBackoffTime 1 (n + 1)),
        .response s⟩ := by
  have hmain := urlopenAux_first_success oracle 1 k 3 0 0 s hk
    (fun i hi => by rw [Nat.zero_add]; exact hr i hi)
    (by rwa [Nat.zero_add]) hs
  rw [sessionGet, hmain]
  have hf : (fun n => getBackoffTime 1 (0 + n + 1)) =
      (fun n => getBackoffTime 1 (n + 1)) :=
    funext fun n => by rw [Nat.zero_add]
  rw [Nat.zero_add, hf]

theorem sessionGet_exhaust (oracle : Nat → Attempt)
    (hall : ∀ i, i ≤ 3 → isRetryableAttempt (oracle i) = true) :
    sessionGet oracle = ⟨4, [0, 2, 4], exhaustCause (oracle 3)⟩ := by
  have hmain := urlopenAux_all_retry oracle 1 3 0 0 (fun i hi => by
    rw [Nat.zero_add]; exact hall i hi)
  rw [sessionGet, hmain]
  rfl

/-- Claim C2 (amended: on failure the fetch raises a single classified
`RequestException` past the boundary instead of returning a `FetchResult`
error value): every failure that escapes `_extract_text_from_url`'s fetch
block is exactly one terminal classified cause — a non-retryable HTTP
error from `raise_for_status`, a `RetryError` after all four attempts saw
retryable outcomes, or a connection error after all four attempts saw
retryable outcomes — and the result observed by the caller is fully
determined by the terminal attempt, so intermediate retry failures are
never observed. -/
theorem claim_C2_terminal_failure (oracle : Nat → Attempt) :
    (∀ s, fetchUrl oracle = .error (.httpError s) →
      (400 ≤ s ∧ s < 600) ∧ retryForcelist.contains s = false) ∧
    (∀ s, fetchUrl oracle = .error (.retryError s) →
      retryForcelist.contains s = true ∧ oracle 3 = .resp s ∧
      ∀ i, i ≤ 3 → isRetryableAttempt (oracle i) = true) ∧
    (fetchUrl oracle = .error .connError →
      oracle 3 = .netErr ∧ ∀ i, i ≤ 3 → isRetryableAttempt (oracle i) = true) ∧
    (∀ k s, k ≤ 3 → (∀ i, i < k → isRetryableAttempt (oracle i) = true) →
      oracle k = .resp s → retryForcelist.contains s = false →
      fetchUrl oracle = raiseForStatus s) := by
  have hlast : ∀ k s, k ≤ 3 →
      (∀ i, i < k → isRetryableAttempt (oracle i) = true) →
      oracle k = .resp s → retryForcelist.contains s = false →
      fetchUrl oracle = raiseForStatus s := by
    intro k s h1 h2 h3 h4
    rw [fetchUrl, sessionGet_first_success oracle k s h1 h2 h3 h4]
  rcases sessionGet_cases oracle with ⟨k, s0, hk, hpre, ho, hc, htr⟩ | ⟨hall, htr⟩
  · have hfu : fetchUrl oracle = raiseForStatus s0 := by rw [fetchUrl, htr]
    refine ⟨?_, ?_, ?_, hlast⟩
    · intro s h
      rw [hfu, raiseForStatus] at h
      by_cases hr : 400 ≤ s0 ∧ s0 < 600
      · rw [if_pos hr] at h
        injection h with he
        injection he with he2
        subst he2
        exact ⟨hr, hc⟩
      · rw [if_neg hr] at h
        exact absurd h (by simp)
    · intro s h
      rw [hfu, raiseForStatus] at h
      by_cases hr : 400 ≤ s0 ∧ s0 < 600
      · rw [if_pos hr] at h
        injection h with he
        exact absurd he (by simp)
      · rw [if_neg hr] at h
        exact absurd h (by simp)
    · intro h
      rw [hfu, raiseForStatus] at h
      by_cases hr : 400 ≤ s0 ∧ s0 < 600
      · rw [if_pos hr] at h
        injection h with he
        exact absurd he (by simp)
      · rw [if_neg hr] at h
        exact absurd h (by simp)
  · cases ho3 : oracle 3 with
    | resp s0 =>
      have hfu : fetchUrl oracle = .error (.retryError s0) := by
        rw [fetchUrl, htr, ho3]
        rfl
      refine ⟨?_, ?_, ?_, hlast⟩
      · intro s h
        rw [hfu] at h
        injection h with he
        exact absurd he (by simp)
      · intro s h
        rw [hfu] at h
        injection h with he
        injection he with he2
        subst he2
        have hcontains : retryForcelist.contains s0 = true := by
          have hh := hall 3 (by omega)
          rwa [isRetryableAttempt.eq_def, ho3] at hh
        exact ⟨hcontains, rfl, hall⟩
      · intro h
        rw [hfu] at h
        injection h with he
        exact absurd he (by simp)
    | netErr =>
      have hfu : fetchUrl oracle = .error .connError := by
        rw [fetchUrl, htr, ho3]
        rfl
      refine ⟨?_, ?_, ?_, hlast⟩
      · intro s h
        rw [hfu] at h
        injection h with he
        exact absurd he (by simp)
      · intro s h
        rw [hfu] at h
        injection h with he
        exact absurd he (by simp)
      · intro h
        exact ⟨rfl, hall⟩

/-- Counterexample to C2 as stated: a 404 response makes the fetch raise
a `RequestException` (modelled by `Except.error`) past the Fetcher
boundary; no `FetchResult` failure value is returned to the caller. -/
theorem claim_C2_counterexample :
    fetchUrl (fun _ => Attempt.resp 404) =
      Except.error (FetchFailure.httpError 404) ∧
    (fetchUrl (fun _ => Attempt.resp 404)).isOk = false :=
  ⟨rfl, rfl⟩

/-- Witness for C2: one retryable 503 followed by a 404 raises exactly
the terminal `HTTPError` classification, the intermediate 503 being
invisible to the caller. -/
theorem claim_C2_witness :
    fetchUrl (fun i => if i = 0 then Attempt.resp 503 else Attempt.resp 404) =
      Except.error (FetchFailure.httpError 404) :=
  ((claim_C2_terminal_failure
      (fun i => if i = 0 then Attempt.resp 503 else Attempt.resp 404)).2.2.2
    1 404 (by omega) (fun i hi => by interval_cases i; rfl) rfl rfl).trans rfl

/-- Modelled from the spec: the backoff-delay formula the claim states,
`base_delay * multiplier^(attempt-1)`, as the wait preceding retry number
`attempt`. -/
def specBackoffDelay (base mult attempt : Nat) : Nat :=
  base * mult ^ (attempt - 1)

/-- Claim C4 (amended: with `backoff_factor = base_delay` and factor-2
exponential growth, the wait before the first retry is `0` and the wait
before retry `n ≥ 2` is `min 120 (base_delay * 2^(n-1))`): a response
with status in `{429, 500, 502, 503, 504}` or a transport error is
retried up to 3 (= `max_attempts - 1`) additional times with those
waits, while a non-retryable 4xx response other than 429 — such as 404 —
terminates the fetch after exactly 1 attempt with no retries and no
waits. -/
theorem claim_C4_retry_policy (oracle : Nat → Attempt) :
    (∀ s, 400 ≤ s → s < 500 → s ≠ 429 → oracle 0 = .resp s →
      sessionGet oracle = ⟨1, [], .response s⟩) ∧
    ((∀ i, i ≤ 3 → isRetryableAttempt (oracle i) = true) →
      sessionGet oracle = ⟨4, [0, 2, 4], exhaustCause (oracle 3)⟩) ∧
    (∀ k s, k ≤ 3 → (∀ i, i < k → isRetryableAttempt (oracle i) = true) →
      oracle k = .resp s → retryForcelist.contains s = false →
      sessionGet oracle =
        ⟨k + 1, (List.range k).map (fun n => getBackoffTime 1 (n + 1)),
          .response s⟩) := by
  refine ⟨?_, sessionGet_exhaust oracle, sessionGet_first_success oracle⟩
  intro s h400 h500 h429 ho
  have hs : retryForcelist.contains s = false := by
    have hmem : ¬ s ∈ retryForcelist := by
      simp only [retryForcelist, List.mem_cons, List.not_mem_nil, or_false,
        not_or]
      omega
    simpa using hmem
  exact sessionGet_first_success oracle 0 s (by omega)
    (fun i hi => absurd hi (by omega)) ho hs

/-- Counterexample to C4 as stated: with a 503 then a 200, the single
wait actually slept before the first retry is `0` seconds, while the
claim's formula `base_delay * multiplier^(attempt-1)` gives
`1 * 2^0 = 1` for that first retry. -/
theorem claim_C4_counterexample :
    (sessionGet (fun i => if i = 0 then Attempt.resp 503
        else Attempt.resp 200)).delays = [0] ∧
    specBackoffDelay 1 2 1 = 1 :=
  ⟨rfl, rfl⟩

/-- Witness for C4: a 404 terminates after exactly one attempt with no
waits, and four straight 503s exhaust all four attempts with waits
`[0, 2, 4]`. -/
theorem claim_C4_witness :
    sessionGet (fun _ => Attempt.resp 404) = ⟨1, [], .response 404⟩ ∧
    sessionGet (fun _ => Attempt.resp 503) =
      ⟨4, [0, 2, 4], .maxRetryStatus 503⟩ :=
  ⟨(claim_C4_retry_policy (fun _ => Attempt.resp 404)).1 404
      (by omega) (by omega) (by omega) rfl,
   (claim_C4_retry_policy (fun _ => Attempt.resp 503)).2.1 (fun i _ => rfl)⟩

end BlogTitle